import Mathlib

/-! Verification of the tiled navigation-layer cache of the goldsrcnaveditor
repository (Sample_TempObstacles.cpp and its helpers).  The development
shallowly embeds the layer codec (FastLZCompressor), the scratch allocator
(LinearAllocator), the tile rasterizer's layer-count policy
(rasterizeTileLayers), the per-frame update loop (handleUpdate), and the
persistence codec (SaveData / loadAll), and settles the frozen claims about
them.  Bytes are modelled as natural numbers, machine integers as Nat / Int,
and files as structured records mirroring the structs written by fwrite. -/

/-- Detour status values, reduced to the success / failure distinction that
the embedded code inspects (DT_SUCCESS vs DT_FAILURE). -/
inductive DtStatus where
  | success
  | failure
deriving DecidableEq, Repr

/-- Modelled from the spec: fastlz_compress (fastlz.c is not under src/, only
its header is included and its callers appear in Sample_TempObstacles.cpp).
The spec requires only that the codec is a general-purpose byte compressor
whose compressed stream round-trips exactly; we model it as a literal-run
encoder: each run of at most 32 bytes is emitted after a control byte holding
the run length minus one (a value in [0,31]).  The first argument is
structural recursion fuel, always instantiated with the input length, which
bounds the number of runs. -/
def fastlz_compressAux : Nat → List Nat → List Nat
  | _, [] => []
  | 0, _ :: _ => []
  | fuel + 1, x :: xs =>
      (((x :: xs).take 32).length - 1) ::
        ((x :: xs).take 32 ++ fastlz_compressAux fuel ((x :: xs).drop 32))

/-- Modelled from the spec: fastlz_compress applied to a raw byte buffer. -/
def fastlz_compress (l : List Nat) : List Nat := fastlz_compressAux l.length l

/-- Modelled from the spec: the stream decoder inside fastlz_decompress.
It parses the literal-run format produced by fastlz_compress and rejects a
malformed stream (a control byte outside [0,31], or a run that overruns the
remaining input) by returning none.  The first argument is structural
recursion fuel, always instantiated with the input length. -/
def fastlz_decodeAux : Nat → List Nat → Option (List Nat)
  | _, [] => some []
  | 0, _ :: _ => none
  | fuel + 1, h :: rest =>
      if h ≤ 31 ∧ h + 1 ≤ rest.length then
        match fastlz_decodeAux fuel (rest.drop (h + 1)) with
        | some tail => some (rest.take (h + 1) ++ tail)
        | none => none
      else none

/-- Modelled from the spec: decoding a complete compressed stream. -/
def fastlz_decode (c : List Nat) : Option (List Nat) := fastlz_decodeAux c.length c

/-- Modelled from the spec: fastlz_decompress(compressed, compressedSize,
buffer, maxout).  Per the spec the call fails when the compressed stream is
malformed or when the decompressed output would exceed the supplied maximum
raw size; following the convention the caller in src/ tests for, failure is
signalled by a negative returned size.  On success it returns the decompressed
length together with the output bytes. -/
def fastlz_decompress (c : List Nat) (maxOut : Nat) : Int × List Nat :=
  match fastlz_decode c with
  | some out => if out.length ≤ maxOut then ((out.length : Int), out) else (-1, [])
  | none => (-1, [])

/-- FastLZCompressor::compress (src/unnamed/part_000 lines 122-127): delegates
to fastlz_compress and always returns DT_SUCCESS together with the compressed
bytes. -/
def FastLZCompressor.compress (buffer : List Nat) : DtStatus × List Nat :=
  (DtStatus.success, fastlz_compress buffer)

/-- FastLZCompressor::decompress (src/unnamed/part_000 lines 129-134):
delegates to fastlz_decompress and maps a negative returned size to
DT_FAILURE, any other to DT_SUCCESS.  The result carries the status, the
output bytes and the returned size (the value stored through bufferSize). -/
def FastLZCompressor.decompress (compressed : List Nat) (maxBufferSize : Nat) :
    DtStatus × List Nat × Int :=
  let r := fastlz_decompress compressed maxBufferSize
  (if r.1 < 0 then DtStatus.failure else DtStatus.success, r.2, r.1)

/-- Round the natural number v / 2^s to the nearest integer, ties to even:
the rounding step of IEEE-754 binary32 arithmetic. -/
def rne (v s : Nat) : Nat :=
  if s = 0 then v
  else if v % 2 ^ s > 2 ^ (s - 1) then v / 2 ^ s + 1
  else if v % 2 ^ s < 2 ^ (s - 1) then v / 2 ^ s
  else if v / 2 ^ s % 2 = 0 then v / 2 ^ s else v / 2 ^ s + 1

/-- The float literal 1.05f is the binary32 value 8808038 / 2^23
(0x3F866666, i.e. 1.0499999523162841796875).  The product n * 1.05f, for an
int n exactly representable in binary32 (n < 2^24), is the binary32 nearest
value of n * 8808038 / 2^23; this function returns that product scaled by
2^23.  When the scaled product needs more than 24 significand bits it is
rounded to nearest, ties to even, at the appropriate bit position. -/
def mul105f (n : Nat) : Nat :=
  let v := n * 8808038
  if v < 2 ^ 24 then v
  else
    let k := Nat.log2 v + 1
    rne v (k - 24) * 2 ^ (k - 24)

/-- FastLZCompressor::maxCompressedSize (src/unnamed/part_000 lines 117-120):
returns (int)(bufferSize * 1.05f); the C cast truncates the nonnegative float
toward zero, i.e. divides the 2^23-scaled product by 2^23. -/
def FastLZCompressor.maxCompressedSize (bufferSize : Nat) : Nat :=
  mul105f bufferSize / 2 ^ 23

theorem fastlz_compressAux_nil (f : Nat) : fastlz_compressAux f [] = [] := by
  cases f <;> rfl

theorem fastlz_compressAux_irrel (f1 : Nat) :
    ∀ (f2 : Nat) (l : List Nat), l.length ≤ f1 → l.length ≤ f2 →
      fastlz_compressAux f1 l = fastlz_compressAux f2 l := by
  induction f1 with
  | zero =>
    intro f2 l h1 _
    have : l = [] := List.length_eq_zero.mp (Nat.le_zero.mp h1)
    subst this
    rw [fastlz_compressAux_nil, fastlz_compressAux_nil]
  | succ g ih =>
    intro f2 l h1 h2
    cases l with
    | nil => rw [fastlz_compressAux_nil, fastlz_compressAux_nil]
    | cons x xs =>
      cases f2 with
      | zero => simp [List.length_cons] at h2
      | succ g2 =>
        simp only [fastlz_compressAux]
        have hx : xs.length ≤ g := by simp [List.length_cons] at h1; omega
        have hx2 : xs.length ≤ g2 := by simp [List.length_cons] at h2; omega
        rw [ih g2 ((x :: xs).drop 32)
          (by simp [List.length_drop, List.length_cons]; omega)
          (by simp [List.length_drop, List.length_cons]; omega)]

/-- Unfolding equation for fastlz_compress on a nonempty buffer. -/
theorem fastlz_compress_cons (l : List Nat) (h : l ≠ []) :
    fastlz_compress l =
      ((l.take 32).length - 1) :: (l.take 32 ++ fastlz_compress (l.drop 32)) := by
  cases l with
  | nil => exact absurd rfl h
  | cons x xs =>
    show fastlz_compressAux (xs.length + 1) (x :: xs) = _
    simp only [fastlz_compressAux]
    rw [fastlz_compressAux_irrel xs.length ((x :: xs).drop 32).length ((x :: xs).drop 32)
      (by simp only [List.length_drop, List.length_cons]; omega) (le_refl _)]
    rfl

theorem fastlz_decodeAux_nil (f : Nat) : fastlz_decodeAux f [] = some [] := by
  cases f <;> rfl

theorem fastlz_decodeAux_irrel (f1 : Nat) :
    ∀ (f2 : Nat) (c : List Nat), c.length ≤ f1 → c.length ≤ f2 →
      fastlz_decodeAux f1 c = fastlz_decodeAux f2 c := by
  induction f1 with
  | zero =>
    intro f2 c h1 _
    have : c = [] := List.length_eq_zero.mp (Nat.le_zero.mp h1)
    subst this
    rw [fastlz_decodeAux_nil, fastlz_decodeAux_nil]
  | succ g ih =>
    intro f2 c h1 h2
    cases c with
    | nil => rw [fastlz_decodeAux_nil, fastlz_decodeAux_nil]
    | cons h rest =>
      cases f2 with
      | zero => simp [List.length_cons] at h2
      | succ g2 =>
        simp only [fastlz_decodeAux]
        have hr : rest.length ≤ g := by simp [List.length_cons] at h1; omega
        have hr2 : rest.length ≤ g2 := by simp [List.length_cons] at h2; omega
        rw [ih g2 (rest.drop (h + 1))
          (by simp [List.length_drop]; omega)
          (by simp [List.length_drop]; omega)]

/-- Unfolding equation for fastlz_decode on a nonempty stream. -/
theorem fastlz_decode_cons (h : Nat) (rest : List Nat) :
    fastlz_decode (h :: rest) =
      if h ≤ 31 ∧ h + 1 ≤ rest.length then
        match fastlz_decode (rest.drop (h + 1)) with
        | some tail => some (rest.take (h + 1) ++ tail)
        | none => none
      else none := by
  show fastlz_decodeAux (rest.length + 1) (h :: rest) = _
  simp only [fastlz_decodeAux]
  rw [fastlz_decodeAux_irrel rest.length (rest.drop (h + 1)).length (rest.drop (h + 1))
    (by simp [List.length_drop]) (le_refl _)]
  rfl

/-- Decoding inverts encoding: the literal-run decoder recovers the exact
input bytes from the compressed stream. -/
theorem fastlz_decode_compress (l : List Nat) :
    fastlz_decode (fastlz_compress l) = some l := by
  suffices H : ∀ (n : Nat) (l : List Nat), l.length = n →
      fastlz_decode (fastlz_compress l) = some l from H l.length l rfl
  intro n
  induction n using Nat.strong_induction_on with
  | _ n ih =>
    intro l hn
    by_cases h : l = []
    · subst h
      rfl
    · have hlen : 0 < l.length := List.length_pos.mpr h
      rw [fastlz_compress_cons l h, fastlz_decode_cons]
      have htake : (l.take 32).length = min 32 l.length := List.length_take 32 l
      have hcond : (l.take 32).length - 1 ≤ 31 ∧
          (l.take 32).length - 1 + 1 ≤ (l.take 32 ++ fastlz_compress (l.drop 32)).length := by
        constructor
        · omega
        · rw [List.length_append]; omega
      rw [if_pos hcond]
      have hexact : (l.take 32).length - 1 + 1 = (l.take 32).length := by omega
      rw [hexact, List.drop_left, List.take_left]
      have hrec : fastlz_decode (fastlz_compress (l.drop 32)) = some (l.drop 32) := by
        exact ih (l.drop 32).length (by simp [List.length_drop]; omega) (l.drop 32) rfl
      rw [hrec]
      simp

/-- C1: for every raw layer byte buffer B and any maxRawSize at least the
length of B, running FastLZCompressor::compress and then
FastLZCompressor::decompress on the result succeeds and yields exactly B,
byte for byte, with the returned size equal to the length of B. -/
theorem compress_decompress_roundtrip (B : List Nat) (maxRawSize : Nat)
    (h : B.length ≤ maxRawSize) :
    FastLZCompressor.decompress (FastLZCompressor.compress B).2 maxRawSize
      = (DtStatus.success, B, (B.length : Int)) := by
  unfold FastLZCompressor.decompress FastLZCompressor.compress fastlz_decompress
  rw [fastlz_decode_compress B]
  simp [h]

/-- Witness for C1: the concrete buffer [7, 7, 7] round-trips through the
codec at maxRawSize 3. -/
theorem compress_decompress_roundtrip_witness :
    [7, 7, 7].length ≤ 3 ∧
      FastLZCompressor.decompress (FastLZCompressor.compress [7, 7, 7]).2 3
        = (DtStatus.success, [7, 7, 7], (3 : Int)) :=
  ⟨by decide, compress_decompress_roundtrip [7, 7, 7] 3 (by decide)⟩

/-- C5: FastLZCompressor::decompress returns DT_SUCCESS exactly when the
compressed stream is well formed and its decompressed output fits within
maxRawSize; on a malformed stream, or when the output would exceed
maxRawSize, it returns DT_FAILURE. -/
theorem decompress_status_iff (c : List Nat) (maxRawSize : Nat) :
    (FastLZCompressor.decompress c maxRawSize).1 = DtStatus.success ↔
      ∃ out, fastlz_decode c = some out ∧ out.length ≤ maxRawSize := by
  unfold FastLZCompressor.decompress fastlz_decompress
  cases hdec : fastlz_decode c with
  | none => simp
  | some out =>
    by_cases hle : out.length ≤ maxRawSize
    · simp [hle]
    · simp only [hle, if_false]
      constructor
      · intro habs
        simp at habs
      · rintro ⟨o, ho, holen⟩
        cases ho
        exact absurd holen hle

/-- Witness for C5: the stream [1, 8, 9] decodes to the two bytes [8, 9], and
decompress reports success at maxRawSize 2. -/
theorem decompress_status_iff_witness :
    (FastLZCompressor.decompress [1, 8, 9] 2).1 = DtStatus.success :=
  (decompress_status_iff [1, 8, 9] 2).mpr ⟨[8, 9], by decide, by decide⟩

/-- Length of the modelled compressed stream: one control byte per run of at
most 32 literals. -/
theorem fastlz_compress_length (l : List Nat) :
    (fastlz_compress l).length = l.length + (l.length + 31) / 32 := by
  suffices H : ∀ (n : Nat) (l : List Nat), l.length = n →
      (fastlz_compress l).length = l.length + (l.length + 31) / 32 from H l.length l rfl
  intro n
  induction n using Nat.strong_induction_on with
  | _ n ih =>
    intro l hn
    by_cases h : l = []
    · subst h
      rfl
    · have hlen : 0 < l.length := List.length_pos.mpr h
      rw [fastlz_compress_cons l h]
      have htake : (l.take 32).length = min 32 l.length := List.length_take 32 l
      have hrec : (fastlz_compress (l.drop 32)).length
          = (l.drop 32).length + ((l.drop 32).length + 31) / 32 :=
        ih (l.drop 32).length (by simp only [List.length_drop]; omega) (l.drop 32) rfl
      simp only [List.length_cons, List.length_append, List.length_drop] at *
      omega

theorem rne_ge_div (v s : Nat) : v / 2 ^ s ≤ rne v s := by
  unfold rne
  split_ifs with h0 h1 h2 h3
  · subst h0
    simp
  · omega
  · omega
  · omega
  · omega

/-- Rounding to nearest at bit position s loses less than one unit in the
last place: the rounded value scaled back is greater than v - 2^s. -/
theorem rne_scaled_lower (v s : Nat) : v < rne v s * 2 ^ s + 2 ^ s := by
  have hmod : v % 2 ^ s < 2 ^ s := Nat.mod_lt v (Nat.pos_pow_of_pos s (by norm_num))
  have hdm := Nat.div_add_mod v (2 ^ s)
  rw [Nat.mul_comm] at hdm
  have hge : v / 2 ^ s * 2 ^ s ≤ rne v s * 2 ^ s :=
    Nat.mul_le_mul_right _ (rne_ge_div v s)
  omega

/-- The binary32 product n * 1.05f, scaled by 2^23, is at least the exact
scaled product minus its 2^23-th part (relative rounding error below one ulp). -/
theorem mul105f_lower (n : Nat) : n * 8808038 ≤ mul105f n + n * 8808038 / 2 ^ 23 := by
  unfold mul105f
  by_cases hsmall : n * 8808038 < 2 ^ 24
  · simp only [hsmall, if_pos]
    omega
  · simp only [hsmall, if_neg, not_false_iff]
    have hv0 : n * 8808038 ≠ 0 := by
      intro h0
      rw [h0] at hsmall
      exact hsmall (by norm_num)
    set v := n * 8808038 with hv
    set k := Nat.log2 v + 1 with hk
    have hklog : Nat.log2 v = Nat.log 2 v := Nat.log2_eq_log_two
    have hlow : 2 ^ (k - 1) ≤ v := by
      rw [hk]
      simpa [hklog] using Nat.pow_log_le_self 2 hv0
    have hk25 : 25 ≤ k := by
      by_contra hcon
      have hup : v < 2 ^ k := by
        rw [hk, hklog]
        exact Nat.lt_pow_succ_log_self (by norm_num) v
      have : v < 2 ^ 24 := lt_of_lt_of_le hup (Nat.pow_le_pow_right (by norm_num) (by omega))
      exact hsmall this
    have hs23 : 2 ^ (k - 24) * 2 ^ 23 ≤ v := by
      have : 2 ^ (k - 24) * 2 ^ 23 = 2 ^ (k - 1) := by
        rw [← Nat.pow_add]
        congr 1
        omega
      rw [this]
      exact hlow
    have hdivle : 2 ^ (k - 24) ≤ v / 2 ^ 23 :=
      (Nat.le_div_iff_mul_le (Nat.pos_pow_of_pos 23 (by norm_num))).mpr hs23
    have hlower := rne_scaled_lower v (k - 24)
    omega

/-- C4, counterexample: at raw size 1 the codec's maxCompressedSize returns
(int)(1 * 1.05f) = 1, yet compressing the 1-byte buffer [0] produces 2 bytes,
so the returned value is not an over-estimate and a buffer sized by it would
be overrun. -/
theorem maxCompressedSize_undershoots_at_one :
    FastLZCompressor.maxCompressedSize 1 < (FastLZCompressor.compress [0]).2.length := by
  decide

/-- C4, amended: for every raw buffer of size at least 64 (and below 2^24, so
that the int-to-float conversion of the size is exact), maxCompressedSize is
an over-estimate of the size compress produces, so an output buffer sized by
it is not overrun.  For smaller buffers the bound can fail (see the
counterexample at size 1). -/
theorem maxCompressedSize_overestimates (l : List Nat)
    (h64 : 64 ≤ l.length) (hrep : l.length < 2 ^ 24) :
    (FastLZCompressor.compress l).2.length ≤ FastLZCompressor.maxCompressedSize l.length := by
  unfold FastLZCompressor.compress FastLZCompressor.maxCompressedSize
  rw [fastlz_compress_length]
  have hlow := mul105f_lower l.length
  set n := l.length with hn
  set m := mul105f n with hm
  rw [Nat.le_div_iff_mul_le (Nat.pos_pow_of_pos 23 (by norm_num))]
  have h23 : (2 : Nat) ^ 23 = 8388608 := by norm_num
  rw [h23] at *
  omega

/-- Witness for the amended C4: a 64-byte buffer of zeros compresses to 66
bytes while maxCompressedSize 64 = 67. -/
theorem maxCompressedSize_overestimates_witness :
    64 ≤ (List.replicate 64 0).length ∧ (List.replicate 64 0).length < 2 ^ 24 ∧
      (FastLZCompressor.compress (List.replicate 64 0)).2.length
        ≤ FastLZCompressor.maxCompressedSize (List.replicate 64 0).length :=
  ⟨by decide, by decide,
    maxCompressedSize_overestimates (List.replicate 64 0) (by decide) (by decide)⟩

/-- LinearAllocator (src/unnamed/part_000 lines 142-190): a fixed-capacity
bump allocator.  We track whether the backing buffer exists, the capacity
fixed at construction, the bump pointer top and the high-water mark; the
buffer contents are irrelevant to the claims. -/
structure LinearAllocator where
  hasBuffer : Bool
  capacity : Nat
  top : Nat
  high : Nat
deriving DecidableEq, Repr

/-- LinearAllocator::LinearAllocator(cap) = resize(cap) from a zeroed state:
allocates the backing buffer and records the capacity (we model dtAlloc as
succeeding; a failed allocation is the hasBuffer = false state). -/
def LinearAllocator.init (cap : Nat) : LinearAllocator :=
  { hasBuffer := true, capacity := cap, top := 0, high := 0 }

/-- LinearAllocator::alloc (lines 169-178): fails returning null when there
is no buffer or when top + size — a size_t sum, so computed modulo 2^64 —
exceeds the capacity; otherwise returns the offset of the allocation and
bumps top by the same wrapped sum. -/
def LinearAllocator.alloc (a : LinearAllocator) (size : Nat) :
    Option Nat × LinearAllocator :=
  if a.hasBuffer = false then (none, a)
  else if (a.top + size) % 2 ^ 64 > a.capacity then (none, a)
  else (some a.top, { a with top := (a.top + size) % 2 ^ 64 })

/-- LinearAllocator::reset (lines 163-167): folds top into the high-water
mark and reclaims all outstanding allocations at once. -/
def LinearAllocator.reset (a : LinearAllocator) : LinearAllocator :=
  { a with high := max a.high a.top, top := 0 }

/-- LinearAllocator::free (lines 180-183) is a no-op on a bump allocator. -/
def LinearAllocator.freeOp (a : LinearAllocator) : LinearAllocator := a

/-- One call of the allocator's mutating interface, for reasoning about
arbitrary call sequences. -/
inductive AllocOp where
  | alloc (size : Nat)
  | reset
deriving DecidableEq, Repr

def LinearAllocator.step (a : LinearAllocator) : AllocOp → LinearAllocator
  | AllocOp.alloc size => (a.alloc size).2
  | AllocOp.reset => a.reset

/-- The allocator state reached from construction after a sequence of
alloc / reset calls. -/
def LinearAllocator.run (cap : Nat) (ops : List AllocOp) : LinearAllocator :=
  ops.foldl LinearAllocator.step (LinearAllocator.init cap)

/-- C6, counterexample: the source computes top + size in size_t, wrapping
modulo 2^64.  With a buffer present, capacity 32000 and top 100, a request of
size 2^64 - 50 makes the outstanding size plus the request exceed the
capacity, yet the wrapped sum is 50, so alloc succeeds and mutates top —
refuting the claimed failure-exactly-when-over-capacity, with state
unchanged, at this input. -/
theorem alloc_wrap_counterexample :
    (100 : Nat) + (2 ^ 64 - 50) > 32000 ∧
      ((⟨true, 32000, 100, 0⟩ : LinearAllocator).alloc (2 ^ 64 - 50)).1 ≠ none ∧
      ((⟨true, 32000, 100, 0⟩ : LinearAllocator).alloc (2 ^ 64 - 50)).2
        ≠ (⟨true, 32000, 100, 0⟩ : LinearAllocator) := by
  refine ⟨by decide, ?_, ?_⟩
  · decide
  · decide

/-- C6, amended: alloc(size) fails exactly when no buffer exists or when the
size_t sum top + size, taken modulo 2^64 as the source computes it, exceeds
the capacity, and on failure the allocator state (top, high-water mark,
buffer) is unchanged; for non-wrapping requests (top + size < 2^64, the case
for every realizable allocation) the failure condition is exactly the claimed
one, that the outstanding size plus the request exceeds the capacity. -/
theorem alloc_fail_iff_and_preserves (a : LinearAllocator) (size : Nat) :
    ((a.alloc size).1 = none ↔
        (a.hasBuffer = false ∨ (a.top + size) % 2 ^ 64 > a.capacity)) ∧
      (a.alloc size).2 = (if a.hasBuffer = false ∨ (a.top + size) % 2 ^ 64 > a.capacity
        then a else { a with top := (a.top + size) % 2 ^ 64 }) ∧
      (a.top + size < 2 ^ 64 →
        ((a.alloc size).1 = none ↔ (a.hasBuffer = false ∨ a.top + size > a.capacity))) := by
  unfold LinearAllocator.alloc
  by_cases hb : a.hasBuffer = false
  · rw [if_pos hb]
    exact ⟨iff_of_true rfl (Or.inl hb), by rw [if_pos (Or.inl hb)],
      fun _ => iff_of_true rfl (Or.inl hb)⟩
  · rw [if_neg hb]
    by_cases hcap : (a.top + size) % 2 ^ 64 > a.capacity
    · rw [if_pos hcap]
      refine ⟨iff_of_true rfl (Or.inr hcap), by rw [if_pos (Or.inr hcap)], ?_⟩
      intro hlt
      rw [Nat.mod_eq_of_lt hlt] at hcap
      exact iff_of_true rfl (Or.inr hcap)
    · rw [if_neg hcap]
      refine ⟨iff_of_false (by simp) (by rintro (h | h) <;> [exact hb h; exact hcap h]),
        by rw [if_neg (by rintro (h | h) <;> [exact hb h; exact hcap h])], ?_⟩
      intro hlt
      rw [Nat.mod_eq_of_lt hlt] at hcap
      exact iff_of_false (by simp) (by rintro (h | h) <;> [exact hb h; exact hcap h])

/-- Witness for the amended C6: a non-wrapping over-capacity request on a
concrete allocator fails exactly as the original condition says. -/
theorem alloc_fail_iff_and_preserves_witness :
    ((⟨true, 32000, 100, 0⟩ : LinearAllocator).alloc 40000).1 = none ↔
      ((⟨true, 32000, 100, 0⟩ : LinearAllocator).hasBuffer = false ∨
        (⟨true, 32000, 100, 0⟩ : LinearAllocator).top + 40000 >
          (⟨true, 32000, 100, 0⟩ : LinearAllocator).capacity) :=
  (alloc_fail_iff_and_preserves ⟨true, 32000, 100, 0⟩ 40000).2.2 (by decide)

/-- Invariant used for C7: starting from construction, both the bump pointer
and the high-water mark stay within the fixed capacity. -/
theorem run_within_capacity (cap : Nat) (ops : List AllocOp) :
    (LinearAllocator.run cap ops).top ≤ cap ∧
      (LinearAllocator.run cap ops).high ≤ cap ∧
      (LinearAllocator.run cap ops).capacity = cap := by
  suffices H : ∀ (ops : List AllocOp) (a : LinearAllocator),
      a.top ≤ a.capacity → a.high ≤ a.capacity →
      (ops.foldl LinearAllocator.step a).top ≤ a.capacity ∧
        (ops.foldl LinearAllocator.step a).high ≤ a.capacity ∧
        (ops.foldl LinearAllocator.step a).capacity = a.capacity by
    have := H ops (LinearAllocator.init cap) (by simp [LinearAllocator.init])
      (by simp [LinearAllocator.init])
    simpa [LinearAllocator.run, LinearAllocator.init] using this
  intro ops
  induction ops with
  | nil => intro a h1 h2; exact ⟨h1, h2, rfl⟩
  | cons op rest ih =>
    intro a h1 h2
    have hstep : (a.step op).top ≤ a.capacity ∧ (a.step op).high ≤ a.capacity ∧
        (a.step op).capacity = a.capacity := by
      cases op with
      | alloc size =>
        unfold LinearAllocator.step LinearAllocator.alloc
        dsimp only
        by_cases hb : a.hasBuffer = false
        · rw [if_pos hb]
          exact ⟨h1, h2, rfl⟩
        · rw [if_neg hb]
          by_cases hcap : (a.top + size) % 2 ^ 64 > a.capacity
          · rw [if_pos hcap]
            exact ⟨h1, h2, rfl⟩
          · rw [if_neg hcap]
            refine ⟨?_, h2, rfl⟩
            show (a.top + size) % 2 ^ 64 ≤ a.capacity
            omega
      | reset =>
        unfold LinearAllocator.step LinearAllocator.reset
        simp
        omega
    have := ih (a.step op) (by rw [hstep.2.2]; exact hstep.1) (by rw [hstep.2.2]; exact hstep.2.1)
    rw [hstep.2.2] at this
    simpa [List.foldl_cons] using this

/-- C7: over every sequence of alloc / reset calls from construction, the
outstanding size and the high-water mark never exceed the capacity given at
construction, and a reset zeroes the outstanding size (reclaiming all
allocations) while never decreasing the high-water mark. -/
theorem allocator_reset_invariants (cap : Nat) (ops : List AllocOp) :
    (LinearAllocator.run cap ops).top ≤ cap ∧
      (LinearAllocator.run cap ops).high ≤ cap ∧
      (LinearAllocator.run cap ops).reset.top = 0 ∧
      (LinearAllocator.run cap ops).high ≤ (LinearAllocator.run cap ops).reset.high ∧
      (LinearAllocator.run cap ops).reset.high ≤ cap :=
  have h := run_within_capacity cap ops
  ⟨h.1, h.2.1, rfl, by simp [LinearAllocator.reset], by simp [LinearAllocator.reset]; omega⟩

/-- MAX_LAYERS (src/unnamed/part_000 line 249): the fixed cap on vertical
floors per tile. -/
def MAX_LAYERS : Nat := 32

/-- Sample_TempObstacles::rasterizeTileLayers, layer-count policy
(src/unnamed/part_000 lines 430-475).  After the external pipeline has built
the height-field layer set (lset), the build loop runs over the first
min(nlayers, MAX_LAYERS) layers, turning each into a compressed tile via
dtBuildTileCacheLayer (the external builder, modelled as the function
argument build and assumed to succeed), and the transfer loop hands the first
min(ntiles, maxTiles) of the built tiles to the caller.  Floors beyond
MAX_LAYERS are dropped without any error being reported. -/
def rasterizeTileLayers {α β : Type} (build : α → β) (lset : List α)
    (maxTiles : Nat) : List β :=
  ((lset.take MAX_LAYERS).map build).take maxTiles

/-- C8: rasterizeTileLayers returns at most min(MAX_LAYERS, maxTiles)
compressed layers; it returns exactly the builds of the first
min(min(nlayers, MAX_LAYERS), maxTiles) floors, so floors beyond the cap are
silently dropped rather than reported as an error. -/
theorem rasterizeTileLayers_cap {α β : Type} (build : α → β) (lset : List α)
    (maxTiles : Nat) :
    (rasterizeTileLayers build lset maxTiles).length ≤ min MAX_LAYERS maxTiles ∧
      rasterizeTileLayers build lset maxTiles
        = (lset.take (min (min lset.length MAX_LAYERS) maxTiles)).map build := by
  constructor
  · simp only [rasterizeTileLayers, List.length_take, List.length_map, MAX_LAYERS]
    omega
  · unfold rasterizeTileLayers
    rw [← List.map_take, List.take_take]
    congr 1
    rw [List.take_eq_take]
    simp only [MAX_LAYERS]
    omega

/-- NavMeshEntry as used by the per-frame update loop
(Sample_TempObstacles::handleUpdate, src/unnamed/part_000 lines 1467-1483):
whether the entry's navmesh and tile cache pointers are non-null, and how
many dtTileCache::update calls the entry has received this tick (modelled
from the spec: update drains the entry's dirty-tile queue; for this claim
only the fact that the call happened matters). -/
structure NavMeshEntry where
  hasNavMesh : Bool
  hasTileCache : Bool
  updates : Nat
deriving DecidableEq, Repr

/-- Sample_TempObstacles::handleUpdate (lines 1467-1483): walks the navmesh
array in index order; on the first entry whose navmesh or tile cache is null
it returns (not continue), leaving that entry and all later entries without
an update; otherwise it calls update on the entry's tile cache. -/
def handleUpdate : List NavMeshEntry → List NavMeshEntry
  | [] => []
  | e :: rest =>
    if e.hasNavMesh = false then e :: rest
    else if e.hasTileCache = false then e :: rest
    else { e with updates := e.updates + 1 } :: handleUpdate rest

/-- C10: if the entry at index i has a null navmesh or a null tile cache,
handleUpdate leaves every entry at index j ≥ i exactly as it was — no tile
cache at or beyond that index receives an update this tick, even when those
entries are fully initialized. -/
theorem handleUpdate_stops_at_invalid (es : List NavMeshEntry) (i : Nat)
    (hi : i < es.length)
    (hbad : (es.get ⟨i, hi⟩).hasNavMesh = false ∨ (es.get ⟨i, hi⟩).hasTileCache = false)
    (j : Nat) (hij : i ≤ j) :
    (handleUpdate es)[j]? = es[j]? := by
  induction es generalizing i j with
  | nil => simp at hi
  | cons e rest ih =>
    cases i with
    | zero =>
      simp only [List.get] at hbad
      unfold handleUpdate
      rcases hbad with hb | hb
      · rw [hb]
        simp
      · rw [hb]
        by_cases hn : e.hasNavMesh = false
        · simp [hn]
        · simp [hn]
    | succ i' =>
      unfold handleUpdate
      by_cases hn : e.hasNavMesh = false
      · simp [hn]
      · by_cases ht : e.hasTileCache = false
        · simp [hn, ht]
        · simp only [hn, ht, if_false]
          cases j with
          | zero => omega
          | succ j' =>
            have hi' : i' < rest.length := by simp [List.length_cons] at hi; omega
            have hbad' : (rest.get ⟨i', hi'⟩).hasNavMesh = false ∨
                (rest.get ⟨i', hi'⟩).hasTileCache = false := by
              simpa [List.get] using hbad
            have := ih i' hi' hbad' j' (by omega)
            simpa [List.getElem?_cons_succ] using this

/-- Witness for C10: with entries [valid, invalid, valid], the fully
initialized entry at index 2 is left untouched because index 1 has a null
tile cache. -/
theorem handleUpdate_stops_at_invalid_witness :
    (handleUpdate [⟨true, true, 0⟩, ⟨true, false, 0⟩, ⟨true, true, 5⟩])[2]?
      = ([⟨true, true, 0⟩, ⟨true, false, 0⟩, ⟨true, true, 5⟩] :
          List NavMeshEntry)[2]? :=
  handleUpdate_stops_at_invalid
    [⟨true, true, 0⟩, ⟨true, false, 0⟩, ⟨true, true, 5⟩] 1 (by decide)
    (by decide) 2 (by decide)

/-- Off-mesh connection states referenced by src/ (DT_OFFMESH_EMPTY,
DT_OFFMESH_DIRTY, DT_OFFMESH_REMOVING); per the spec the state set is
EMPTY / DIRTY (pending connect) / REMOVING. -/
inductive OffMeshState where
  | empty
  | dirty
  | removing
deriving DecidableEq, Repr

/-- Obstacle states (DT_OBSTACLE_*) referenced by src/. -/
inductive ObstacleState where
  | empty
  | processing
  | processed
  | removing
deriving DecidableEq, Repr

/-- dtOffMeshConnection as persisted and rebuilt by src/: the two endpoint
positions (float triples, modelled as integer triples), radius, area, flags,
bidirectionality and state. -/
structure OffMeshCon where
  posS : Int × Int × Int
  posE : Int × Int × Int
  rad : Int
  area : Nat
  flags : Nat
  bBiDir : Bool
  state : OffMeshState
deriving DecidableEq, Repr

/-- The compressed payload of one tile layer, as handed to addTile: the
embedded dtTileCacheLayerHeader carries the tile coordinate, followed by the
compressed grid bytes.  Identical data means identical coordinate and bytes. -/
structure TileData where
  tx : Int
  ty : Int
  tlayer : Nat
  payload : List Nat
deriving DecidableEq, Repr

/-- One occupied dtCompressedTile slot of a tile cache: its reference handle
and its owned compressed data. -/
structure Tile where
  ref : Nat
  data : TileData
deriving DecidableEq, Repr

/-- dtTileCacheObstacle: position, size, area and lifecycle state. -/
structure Obstacle where
  pos : Int × Int × Int
  radius : Int
  height : Int
  area : Nat
  state : ObstacleState
deriving DecidableEq, Repr

/-- The dtTileCacheParams fields the claims depend on (capacities; the
remaining geometric fields ride along through save / load untouched and are
represented by an opaque tag). -/
structure TileCacheParams where
  maxTiles : Nat
  maxObstacles : Nat
  maxOffMeshConnections : Nat
  geomTag : Nat
deriving DecidableEq, Repr

/-- dtNavMeshParams, opaque: copied through save / load unchanged. -/
structure NavMeshParams where
  raw : Nat
deriving DecidableEq, Repr

/-- One entry of m_NavMeshArray as the persistence code sees it: the tile
cache's parameter block, its tile, obstacle and off-mesh-connection tables,
and the paired navmesh's parameters.  Modelled from the spec where the
dtTileCache internals are not under src/: the store owns these tables. -/
structure TileCacheEntry where
  cacheParams : TileCacheParams
  meshParams : NavMeshParams
  tiles : List Tile
  obstacles : List Obstacle
  cons : List OffMeshCon
deriving DecidableEq, Repr

/-- Modelled from the spec: dtTileCache::init — fresh empty tables with the
given parameter blocks (dtTileCache.cpp is not under src/). -/
def TileCacheEntry.init (cp : TileCacheParams) (mp : NavMeshParams) : TileCacheEntry :=
  { cacheParams := cp, meshParams := mp, tiles := [], obstacles := [], cons := [] }

/-- Modelled from the spec: dtTileCache::addTile — takes ownership of the
compressed data, assigns a fresh nonzero handle, and fails with a capacity
error when the store is at its configured maximum tile count (dtTileCache.cpp
is not under src/). -/
def TileCacheEntry.addTile (tc : TileCacheEntry) (d : TileData) :
    DtStatus × TileCacheEntry :=
  if tc.tiles.length < tc.cacheParams.maxTiles then
    (DtStatus.success, { tc with tiles := tc.tiles ++ [⟨tc.tiles.length + 1, d⟩] })
  else (DtStatus.failure, tc)

/-- Modelled from the spec: dtTileCache::addOffMeshConnection — appends a new
connection in state DIRTY (pending connect) built from the given endpoints,
radius, area, flags and direction, failing at the configured connection
capacity (dtTileCache.cpp is not under src/). -/
def TileCacheEntry.addOffMeshConnection (tc : TileCacheEntry)
    (sp ep : Int × Int × Int) (rad : Int) (area flags : Nat) (bi : Bool) :
    DtStatus × TileCacheEntry :=
  if tc.cons.length < tc.cacheParams.maxOffMeshConnections then
    (DtStatus.success,
      { tc with cons := tc.cons ++
          [{ posS := sp, posE := ep, rad := rad, area := area, flags := flags,
             bBiDir := bi, state := OffMeshState.dirty }] })
  else (DtStatus.failure, tc)

/-- TILECACHESET_MAGIC (src/unnamed/part_000 line 1496): the byte tag TSET,
i.e. 84 shl 24 or 83 shl 16 or 69 shl 8 or 84 = 0x54534554. -/
def TILECACHESET_MAGIC : Int := 1414743380

/-- TILECACHESET_VERSION (src/unnamed/part_000 line 1497). -/
def TILECACHESET_VERSION : Int := 4

/-- TileCacheSetHeader (src/unnamed/part_000 lines 1499-1515) restricted to
the fields the claims touch.  The offset fields are an artifact of the flat
file and are implicit in the structured file model; the convex-volume and
nav-hint tables are outside the claims and omitted from the model. -/
structure TileCacheSetHeader where
  magic : Int
  version : Int
  numTiles : Nat
  meshParams : NavMeshParams
  cacheParams : TileCacheParams
  NumOffMeshCons : Nat
deriving DecidableEq, Repr

/-- TileCacheTileHeader (lines 1531-1535) followed by the tile's data bytes. -/
structure TileRecord where
  tileRef : Nat
  dataSize : Nat
  data : TileData
deriving DecidableEq, Repr

/-- One tile cache's section of the persisted file: its set header, its tile
records and its off-mesh-connection records. -/
structure TileCacheSet where
  header : TileCacheSetHeader
  tiles : List TileRecord
  cons : List OffMeshCon
deriving DecidableEq, Repr

/-- TileCacheExportHeader (lines 1517-1529) plus the data it indexes, as a
structured file: the per-cache offset table of the flat layout is implicit in
the caches list. -/
structure ExportFile where
  magic : Int
  version : Int
  numTileCaches : Nat
  NumSurfTypes : Nat
  surfTypes : List Int
  caches : List TileCacheSet
deriving DecidableEq, Repr

/-- The persistence guard applied to an off-mesh connection throughout src/:
a connection survives a pass exactly when its state is neither EMPTY nor
REMOVING (the source skips with continue when
state == DT_OFFMESH_EMPTY or state == DT_OFFMESH_REMOVING). -/
def OffMeshCon.persists (c : OffMeshCon) : Bool :=
  match c.state with
  | OffMeshState.empty => false
  | OffMeshState.removing => false
  | OffMeshState.dirty => true

/-- The connection-state pass at the top of SaveData's per-mesh loop (lines
1582-1592): every connection not in state EMPTY or REMOVING is unlinked from
the navmesh and moved to state DIRTY (so that it is re-connected after a
load); EMPTY and REMOVING connections are skipped. -/
def saveConsPass (cons : List OffMeshCon) : List OffMeshCon :=
  cons.map fun c =>
    if c.state = OffMeshState.empty ∨ c.state = OffMeshState.removing then c
    else { c with state := OffMeshState.dirty }

/-- The size in bytes of a stored tile's data (tile->dataSize): the embedded
layer header followed by the compressed payload, hence always positive for an
occupied slot; we count the header as one unit. -/
def TileData.dataSize (d : TileData) : Nat := d.payload.length + 1

/-- The per-mesh body of Sample_TempObstacles::SaveData (lines 1572-1674):
counts and writes the valid tiles (slots with a header and nonzero size),
mutates then writes the persistable off-mesh connections, and records the
parameter blocks in the set header (written via the seek-and-patch pair,
whose net effect is the final header value).  Returns the file section and
the mutated store entry. -/
def saveSet (tc : TileCacheEntry) : TileCacheSet × TileCacheEntry :=
  let cons' := saveConsPass tc.cons
  let written := cons'.filter OffMeshCon.persists
  let validTiles := tc.tiles.filter fun t => t.data.dataSize != 0
  ({ header :=
      { magic := TILECACHESET_MAGIC
        version := TILECACHESET_VERSION
        numTiles := validTiles.length
        meshParams := tc.meshParams
        cacheParams := tc.cacheParams
        NumOffMeshCons := written.length }
     tiles := validTiles.map fun t => ⟨t.ref, t.data.dataSize, t.data⟩
     cons := written },
   { tc with cons := cons' })

/-- Sample_TempObstacles::SaveData (lines 1544-1680): aborts writing nothing
when the first navmesh entry has no tile cache (modelled as an empty navmesh
array); otherwise writes the export header, the surface-type table and each
mesh's section, returning the file and the (connection-state) mutated sample.
The fixed 8-slot tileCacheOffsets array of the flat layout is implicit in the
structured caches list. -/
def Sample.SaveData (surfTypes : List Int) (navMeshArray : List TileCacheEntry) :
    Option (ExportFile × List TileCacheEntry) :=
  match navMeshArray with
  | [] => none
  | _ =>
    some
      ({ magic := TILECACHESET_MAGIC
         version := TILECACHESET_VERSION
         numTileCaches := navMeshArray.length
         NumSurfTypes := surfTypes.length
         surfTypes := surfTypes
         caches := navMeshArray.map fun tc => (saveSet tc).1 },
       navMeshArray.map fun tc => (saveSet tc).2)

/-- The tile-reading loop of loadAll (lines 1754-1784): reads numTiles tile
records; a record with a zero tileRef or zero dataSize breaks out of the
loop; otherwise the data is handed to addTile (on addTile failure the data is
freed and the loop continues). -/
def loadTiles : TileCacheEntry → List TileRecord → TileCacheEntry
  | tc, [] => tc
  | tc, r :: rest =>
    if r.tileRef = 0 ∨ r.dataSize = 0 then tc
    else loadTiles (tc.addTile r.data).2 rest

/-- The connection-reading loop of loadAll (lines 1788-1795): each record is
re-added through addOffMeshConnection with its endpoints, area, flags and
direction — but with the radius hard-coded to the constant 10.0f rather than
the record's own radius. -/
def loadCons : TileCacheEntry → List OffMeshCon → TileCacheEntry
  | tc, [] => tc
  | tc, c :: rest =>
    loadCons (tc.addOffMeshConnection c.posS c.posE 10 c.area c.flags c.bBiDir).2 rest

/-- The per-mesh body of loadAll (lines 1723-1814): frees the entry, inits a
fresh navmesh and tile cache from the set header's parameter blocks, then
replays the tile records and the connection records. -/
def loadSet (tcs : TileCacheSet) : TileCacheEntry :=
  let tc0 := TileCacheEntry.init tcs.header.cacheParams tcs.header.meshParams
  let tc1 := loadTiles tc0 (tcs.tiles.take tcs.header.numTiles)
  loadCons tc1 (tcs.cons.take tcs.header.NumOffMeshCons)

/-- The per-mesh loop of loadAll: entry i is replaced by the cache set loaded
from section i of the file, for i below numTileCaches.  When the file has
fewer sections than numTileCaches claims, the source's fread of the set
header fails and the loop continues, leaving that entry freed; this case is
unreachable for files produced by SaveData and the entry is modelled as kept. -/
def loadEntries : List TileCacheEntry → List TileCacheSet → Nat → List TileCacheEntry
  | es, _, 0 => es
  | [], _, _ + 1 => []
  | e :: es, [], n + 1 => e :: loadEntries es [] n
  | _ :: es, c :: cs, n + 1 => loadSet c :: loadEntries es cs n

/-- The surface-type restore loop of loadAll (lines 1708-1719), modelled from
the spec where InputGeom is not under src/: SetTriangleArea(i, v) overwrites
the i-th surface type of the loaded geometry, indices beyond the geometry's
table being ignored. -/
def setSurfTypes (cur : List Int) (new : List Int) : List Int :=
  (List.range cur.length).map fun i =>
    match new[i]?, cur[i]? with
    | some v, _ => v
    | none, some c => c
    | none, none => 0

/-- The in-memory sample state that loadAll can mutate: the loaded geometry's
surface-type table and the navmesh array. -/
structure SampleState where
  surfTypes : List Int
  navMeshArray : List TileCacheEntry
deriving DecidableEq, Repr

/-- Sample_TempObstacles::loadAll (lines 1682-1818): rejects the file, with
no state mutation, when the export header's magic or version differs from the
fixed constants; otherwise restores the surface types and reloads each
navmesh entry from its file section. -/
def Sample.loadAll (s : SampleState) (f : ExportFile) : SampleState :=
  if f.magic ≠ TILECACHESET_MAGIC then s
  else if f.version ≠ TILECACHESET_VERSION then s
  else
    { surfTypes := setSurfTypes s.surfTypes (f.surfTypes.take f.NumSurfTypes)
      navMeshArray := loadEntries s.navMeshArray f.caches f.numTileCaches }

/-- C3: loadAll rejects any file whose export-header magic or version differs
from the fixed constants, returning with no mutation of the in-memory state
(no navmesh or tile cache freed or allocated, no surface types or tiles set)
beyond closing the file. -/
theorem loadAll_rejects_bad_header (s : SampleState) (f : ExportFile)
    (h : f.magic ≠ TILECACHESET_MAGIC ∨ f.version ≠ TILECACHESET_VERSION) :
    Sample.loadAll s f = s := by
  unfold Sample.loadAll
  by_cases hm : f.magic ≠ TILECACHESET_MAGIC
  · rw [if_pos hm]
  · rcases h with h | h
    · exact absurd h hm
    · rw [if_neg hm, if_pos h]

/-- Witness for C3: a file whose magic is off by one (and which even carries
a cache section) is rejected and the sample state survives untouched. -/
theorem loadAll_rejects_bad_header_witness :
    ((1414743381 : Int) ≠ TILECACHESET_MAGIC ∨ (4 : Int) ≠ TILECACHESET_VERSION) ∧
      Sample.loadAll ⟨[3], []⟩ ⟨1414743381, 4, 0, 1, [9], []⟩ = ⟨[3], []⟩ :=
  ⟨by decide, loadAll_rejects_bad_header ⟨[3], []⟩ ⟨1414743381, 4, 0, 1, [9], []⟩ (by decide)⟩

/-- The filter of the written-connection loop commutes with the state pass:
the records SaveData writes are exactly the connections that were neither
EMPTY nor REMOVING, each written with state DIRTY. -/
theorem filter_persists_saveConsPass (cons : List OffMeshCon) :
    (saveConsPass cons).filter OffMeshCon.persists
      = (cons.filter OffMeshCon.persists).map
          (fun c => { c with state := OffMeshState.dirty }) := by
  induction cons with
  | nil => rfl
  | cons c rest ih =>
    simp only [saveConsPass, List.map_cons, List.filter_cons] at ih ⊢
    cases hs : c.state with
    | empty => simpa [OffMeshCon.persists, hs] using ih
    | removing => simpa [OffMeshCon.persists, hs] using ih
    | dirty => simpa [OffMeshCon.persists, hs] using ih

/-- C9: for every store state at save time, the connection records SaveData
writes into the file section of each mesh — and counts in that section's
header — are exactly the off-mesh connections whose state is neither
REMOVING nor EMPTY (each persisted in state DIRTY); REMOVING and EMPTY
connections are never written. -/
theorem saveData_writes_exactly_live_cons
    (surf : List Int) (arr : List TileCacheEntry) (f : ExportFile)
    (arr' : List TileCacheEntry)
    (hsave : Sample.SaveData surf arr = some (f, arr'))
    (i : Nat) (tc : TileCacheEntry) (hi : arr[i]? = some tc) :
    f.caches[i]? = some (saveSet tc).1 ∧
      (saveSet tc).1.cons = (tc.cons.filter OffMeshCon.persists).map
        (fun c => { c with state := OffMeshState.dirty }) ∧
      (saveSet tc).1.header.NumOffMeshCons = (saveSet tc).1.cons.length := by
  refine ⟨?_, ?_, ?_⟩
  · cases arr with
    | nil => simp [Sample.SaveData] at hsave
    | cons e rest =>
      simp only [Sample.SaveData, Option.some.injEq, Prod.mk.injEq] at hsave
      have hf : f.caches = (e :: rest).map fun tc => (saveSet tc).1 := by
        rw [← hsave.1]
      rw [hf, List.getElem?_map, hi, Option.map_some']
  · show ((saveConsPass tc.cons).filter OffMeshCon.persists) = _
    exact filter_persists_saveConsPass tc.cons
  · rfl

/-- A small store used to witness C9: one EMPTY, one REMOVING and one live
(DIRTY) off-mesh connection. -/
def c9tc : TileCacheEntry :=
  ⟨⟨4, 128, 512, 0⟩, ⟨7⟩, [], [],
    [⟨(0, 0, 0), (1, 1, 1), 3, 1, 1, true, OffMeshState.empty⟩,
     ⟨(0, 0, 0), (2, 2, 2), 4, 1, 1, true, OffMeshState.removing⟩,
     ⟨(0, 0, 0), (3, 3, 3), 5, 1, 1, true, OffMeshState.dirty⟩]⟩

def c9arr : List TileCacheEntry := [c9tc]

def c9file : ExportFile :=
  ((Sample.SaveData [] c9arr).getD (⟨0, 0, 0, 0, [], []⟩, [])).1

def c9arr2 : List TileCacheEntry :=
  ((Sample.SaveData [] c9arr).getD (⟨0, 0, 0, 0, [], []⟩, [])).2

/-- Witness for C9: on the concrete store the file section holds exactly the
one live connection, written in state DIRTY, and the header counts 1. -/
theorem saveData_writes_exactly_live_cons_witness :
    c9arr[0]? = some c9tc ∧
      (c9file.caches[0]? = some (saveSet c9tc).1 ∧
        (saveSet c9tc).1.cons = (c9tc.cons.filter OffMeshCon.persists).map
          (fun c => { c with state := OffMeshState.dirty }) ∧
        (saveSet c9tc).1.header.NumOffMeshCons = (saveSet c9tc).1.cons.length) ∧
      (saveSet c9tc).1.cons
        = [⟨(0, 0, 0), (3, 3, 3), 5, 1, 1, true, OffMeshState.dirty⟩] ∧
      (saveSet c9tc).1.header.NumOffMeshCons = 1 :=
  ⟨rfl, saveData_writes_exactly_live_cons [] c9arr c9file c9arr2 rfl 0 c9tc rfl,
    by decide, by decide⟩

/-- What loadAll makes of a persisted connection record: the endpoints, area,
flags and direction survive, the state becomes DIRTY (pending re-connect) and
the radius is replaced by the constant 10 that the source passes instead of
the record's radius. -/
def setDirtyRad10 (c : OffMeshCon) : OffMeshCon :=
  { c with rad := 10, state := OffMeshState.dirty }

/-- The connection table a store holds after save-then-load: the persistable
connections (neither EMPTY nor REMOVING), re-added with radius 10 and state
DIRTY. -/
def reloadedCons (cons : List OffMeshCon) : List OffMeshCon :=
  (cons.filter OffMeshCon.persists).map setDirtyRad10

/-- Tiles as re-inserted by sequential addTile calls into a fresh cache: the
i-th data gets handle i + 1. -/
def renumberTiles : List TileData → Nat → List Tile
  | [], _ => []
  | d :: ds, n => ⟨n + 1, d⟩ :: renumberTiles ds (n + 1)

/-- The store entry produced by loading what SaveData wrote for a given
entry: same parameter blocks, the same tile data under fresh handles, an
empty obstacle table (obstacles are not persisted), and the persistable
connections with radius reset to 10 and state DIRTY. -/
def reloadedEntry (tc : TileCacheEntry) : TileCacheEntry :=
  { cacheParams := tc.cacheParams
    meshParams := tc.meshParams
    tiles := renumberTiles (tc.tiles.map Tile.data) 0
    obstacles := []
    cons := reloadedCons tc.cons }

/-- Replaying valid tile records through the tile-reading loop appends them
to the cache, renumbered from the current tile count, as long as the
configured capacity is not exceeded. -/
theorem loadTiles_spec (recs : List TileRecord) :
    ∀ (tc : TileCacheEntry),
      (∀ r ∈ recs, r.tileRef ≠ 0 ∧ r.dataSize ≠ 0) →
      tc.tiles.length + recs.length ≤ tc.cacheParams.maxTiles →
      loadTiles tc recs =
        { tc with tiles := tc.tiles ++ renumberTiles (recs.map TileRecord.data) tc.tiles.length } := by
  induction recs with
  | nil =>
    intro tc _ _
    simp [loadTiles, renumberTiles]
  | cons r rest ih =>
    intro tc hval hcap
    have hr := hval r (List.mem_cons_self r rest)
    have hnot : ¬(r.tileRef = 0 ∨ r.dataSize = 0) := by
      rcases hr with ⟨h1, h2⟩
      intro hcon
      rcases hcon with hcon | hcon
      · exact h1 hcon
      · exact h2 hcon
    unfold loadTiles
    rw [if_neg hnot]
    have hlt : tc.tiles.length < tc.cacheParams.maxTiles := by
      simp [List.length_cons] at hcap
      omega
    unfold TileCacheEntry.addTile
    rw [if_pos hlt]
    have hrec := ih { tc with tiles := tc.tiles ++ [⟨tc.tiles.length + 1, r.data⟩] }
      (fun x hx => hval x (List.mem_cons_of_mem r hx))
      (by simp [List.length_append, List.length_cons] at hcap ⊢; omega)
    rw [hrec]
    simp only [List.map_cons, renumberTiles, List.length_append, List.length_cons]
    rw [List.append_assoc]
    rfl

/-- Replaying persisted connection records through the connection-reading
loop appends them, each with radius forced to 10 and state DIRTY, as long as
the configured connection capacity is not exceeded. -/
theorem loadCons_spec (cs : List OffMeshCon) :
    ∀ (tc : TileCacheEntry),
      tc.cons.length + cs.length ≤ tc.cacheParams.maxOffMeshConnections →
      loadCons tc cs = { tc with cons := tc.cons ++ cs.map setDirtyRad10 } := by
  induction cs with
  | nil =>
    intro tc _
    simp [loadCons]
  | cons c rest ih =>
    intro tc hcap
    have hlt : tc.cons.length < tc.cacheParams.maxOffMeshConnections := by
      simp [List.length_cons] at hcap
      omega
    unfold loadCons TileCacheEntry.addOffMeshConnection
    rw [if_pos hlt]
    have hrec := ih { tc with cons := tc.cons ++
        [{ posS := c.posS, posE := c.posE, rad := 10, area := c.area,
           flags := c.flags, bBiDir := c.bBiDir, state := OffMeshState.dirty }] }
      (by simp [List.length_append, List.length_cons] at hcap ⊢; omega)
    rw [hrec]
    simp only [List.map_cons]
    rw [List.append_assoc]
    rfl

/-- Loading the section SaveData wrote for a well-formed entry yields exactly
the reloadedEntry: identical parameters and tile data (renumbered handles),
no obstacles, and the persistable connections with radius 10 and state DIRTY. -/
theorem loadSet_saveSet (tc : TileCacheEntry)
    (htiles : ∀ t ∈ tc.tiles, t.ref ≠ 0)
    (hcapT : tc.tiles.length ≤ tc.cacheParams.maxTiles)
    (hcapC : tc.cons.length ≤ tc.cacheParams.maxOffMeshConnections) :
    loadSet (saveSet tc).1 = reloadedEntry tc := by
  have hfilterT : tc.tiles.filter (fun t => t.data.dataSize != 0) = tc.tiles := by
    rw [List.filter_eq_self]
    intro t _
    simp [TileData.dataSize]
  have hS : (saveSet tc).1 =
      { header :=
          { magic := TILECACHESET_MAGIC, version := TILECACHESET_VERSION,
            numTiles := tc.tiles.length, meshParams := tc.meshParams,
            cacheParams := tc.cacheParams,
            NumOffMeshCons := ((saveConsPass tc.cons).filter OffMeshCon.persists).length }
        tiles := tc.tiles.map fun t => ⟨t.ref, t.data.dataSize, t.data⟩
        cons := (saveConsPass tc.cons).filter OffMeshCon.persists } := by
    simp [saveSet, hfilterT]
  rw [hS]
  show loadCons
      (loadTiles (TileCacheEntry.init tc.cacheParams tc.meshParams)
        ((tc.tiles.map fun t => (⟨t.ref, t.data.dataSize, t.data⟩ : TileRecord)).take
          tc.tiles.length))
      (((saveConsPass tc.cons).filter OffMeshCon.persists).take
        ((saveConsPass tc.cons).filter OffMeshCon.persists).length)
    = reloadedEntry tc
  rw [List.take_length, List.take_of_length_le (by simp [List.length_map])]
  have hT0 := loadTiles_spec (tc.tiles.map fun t => ⟨t.ref, t.data.dataSize, t.data⟩)
    (TileCacheEntry.init tc.cacheParams tc.meshParams)
    (by
      intro r hr
      rw [List.mem_map] at hr
      rcases hr with ⟨t, ht, rfl⟩
      exact ⟨htiles t ht, by simp [TileData.dataSize]⟩)
    (by simp [TileCacheEntry.init, List.length_map]; omega)
  have hT : loadTiles (TileCacheEntry.init tc.cacheParams tc.meshParams)
      (tc.tiles.map fun t => ⟨t.ref, t.data.dataSize, t.data⟩)
    = { cacheParams := tc.cacheParams, meshParams := tc.meshParams,
        tiles := renumberTiles (tc.tiles.map Tile.data) 0
        obstacles := [], cons := [] } := by
    rw [hT0]
    simp only [TileCacheEntry.init, List.nil_append, List.length_nil, List.map_map]
    rfl
  rw [hT]
  have hC0 := loadCons_spec ((saveConsPass tc.cons).filter OffMeshCon.persists)
    { cacheParams := tc.cacheParams, meshParams := tc.meshParams,
      tiles := renumberTiles (tc.tiles.map Tile.data) 0
      obstacles := [], cons := [] }
    (by
      simp only [List.length_nil, Nat.zero_add]
      calc ((saveConsPass tc.cons).filter OffMeshCon.persists).length
          ≤ (saveConsPass tc.cons).length := List.length_filter_le _ _
        _ = tc.cons.length := by simp [saveConsPass]
        _ ≤ tc.cacheParams.maxOffMeshConnections := hcapC)
  rw [hC0]
  unfold reloadedEntry reloadedCons
  rw [filter_persists_saveConsPass, List.map_map]
  simp only [List.nil_append]
  rfl

/-- When the file's section count matches both its section list and the
in-memory array length, the per-mesh load loop replaces every entry by the
load of its section. -/
theorem loadEntries_full (cs : List TileCacheSet) :
    ∀ (es : List TileCacheEntry), es.length = cs.length →
      loadEntries es cs cs.length = cs.map loadSet := by
  induction cs with
  | nil =>
    intro es h
    have : es = [] := List.length_eq_zero.mp h
    subst this
    rfl
  | cons c rest ih =>
    intro es h
    cases es with
    | nil => simp at h
    | cons e es' =>
      show loadSet c :: loadEntries es' rest rest.length = _
      rw [ih es' (by simpa using h)]
      rfl

/-- C2, amended: for every saveable store state (nonempty navmesh array,
nonzero tile handles, tables within the configured capacities) and every
fresh sample with an array of the same size, SaveData followed by loadAll
reproduces per entry the same parameter blocks and exactly the same tile
data — the same set of tile coordinates (embedded in each TileData) with
identical compressed bytes — while the off-mesh connections that are neither
REMOVING nor EMPTY come back with identical endpoints, area, flags and
direction but radius reset to the constant 10 and state DIRTY, and the
obstacle table comes back empty (obstacles are not persisted). -/
theorem saveData_loadAll_roundtrip (s sF : SampleState)
    (hne : s.navMeshArray ≠ [])
    (hlen : sF.navMeshArray.length = s.navMeshArray.length)
    (hwf : ∀ tc ∈ s.navMeshArray,
      (∀ t ∈ tc.tiles, t.ref ≠ 0) ∧
        tc.tiles.length ≤ tc.cacheParams.maxTiles ∧
        tc.cons.length ≤ tc.cacheParams.maxOffMeshConnections) :
    ∃ f arr', Sample.SaveData s.surfTypes s.navMeshArray = some (f, arr') ∧
      (Sample.loadAll sF f).navMeshArray = s.navMeshArray.map reloadedEntry := by
  cases harr : s.navMeshArray with
  | nil => exact absurd harr hne
  | cons e rest =>
    refine ⟨_, _, rfl, ?_⟩
    show (Sample.loadAll sF
      { magic := TILECACHESET_MAGIC, version := TILECACHESET_VERSION,
        numTileCaches := (e :: rest).length, NumSurfTypes := s.surfTypes.length,
        surfTypes := s.surfTypes,
        caches := (e :: rest).map fun tc => (saveSet tc).1 }).navMeshArray
      = (e :: rest).map reloadedEntry
    unfold Sample.loadAll
    rw [if_neg (by simp), if_neg (by simp)]
    show loadEntries sF.navMeshArray ((e :: rest).map fun tc => (saveSet tc).1)
        (e :: rest).length = _
    have hlen2 : sF.navMeshArray.length
        = ((e :: rest).map fun tc => (saveSet tc).1).length := by
      rw [List.length_map, ← harr, hlen]
    have hcount : (e :: rest).length
        = ((e :: rest).map fun tc => (saveSet tc).1).length := by
      rw [List.length_map]
    rw [hcount, loadEntries_full _ sF.navMeshArray hlen2, List.map_map]
    apply List.map_congr_left
    intro tc htc
    have hw := hwf tc (harr ▸ htc)
    exact loadSet_saveSet tc hw.1 hw.2.1 hw.2.2

/-- The store used for the C2 counterexample and the amended round-trip
witness: one tile, one PROCESSED obstacle, and one live connection whose
radius is 5. -/
def c2tc : TileCacheEntry :=
  ⟨⟨4, 128, 512, 0⟩, ⟨7⟩,
    [⟨1, ⟨0, 0, 0, [1, 2, 3]⟩⟩],
    [⟨(0, 0, 0), 2, 3, 1, ObstacleState.processed⟩],
    [⟨(0, 0, 0), (1, 1, 1), 5, 1, 1, true, OffMeshState.dirty⟩]⟩

def c2state : SampleState := ⟨[2], [c2tc]⟩

def c2fresh : SampleState := ⟨[0], [TileCacheEntry.init ⟨0, 0, 0, 0⟩ ⟨0⟩]⟩

def c2saved : ExportFile :=
  ((Sample.SaveData c2state.surfTypes c2state.navMeshArray).getD
    (⟨0, 0, 0, 0, [], []⟩, [])).1

/-- C2, counterexample: saving the concrete store and loading the file into a
fresh sample does not reproduce the obstacle and off-mesh-connection tables.
The store's only obstacle is PROCESSED and its only connection is live with
radius 5 (neither is REMOVING or EMPTY, so the claim requires both back
unchanged), yet after the round-trip the obstacle table is empty and the
connection's radius is 10. -/
theorem saveData_loadAll_not_identical_tables :
    (Sample.SaveData c2state.surfTypes c2state.navMeshArray).isSome = true ∧
      ((Sample.loadAll c2fresh c2saved).navMeshArray.map fun e => (e.obstacles, e.cons))
        ≠ [([⟨(0, 0, 0), 2, 3, 1, ObstacleState.processed⟩],
            [⟨(0, 0, 0), (1, 1, 1), 5, 1, 1, true, OffMeshState.dirty⟩])] := by
  constructor
  · decide
  · decide

/-- Witness for the amended C2: on the concrete store the round-trip holds as
amended, and the reloaded entry visibly keeps the tile bytes, loses the
obstacle, and holds the connection with radius 10. -/
theorem saveData_loadAll_roundtrip_witness :
    (c2state.navMeshArray ≠ [] ∧
      c2fresh.navMeshArray.length = c2state.navMeshArray.length ∧
      ∀ tc ∈ c2state.navMeshArray,
        (∀ t ∈ tc.tiles, t.ref ≠ 0) ∧
          tc.tiles.length ≤ tc.cacheParams.maxTiles ∧
          tc.cons.length ≤ tc.cacheParams.maxOffMeshConnections) ∧
      (∃ f arr', Sample.SaveData c2state.surfTypes c2state.navMeshArray
          = some (f, arr') ∧
        (Sample.loadAll c2fresh f).navMeshArray
          = c2state.navMeshArray.map reloadedEntry) ∧
      c2state.navMeshArray.map reloadedEntry
        = [⟨⟨4, 128, 512, 0⟩, ⟨7⟩,
            [⟨1, ⟨0, 0, 0, [1, 2, 3]⟩⟩], [],
            [⟨(0, 0, 0), (1, 1, 1), 10, 1, 1, true, OffMeshState.dirty⟩]⟩] :=
  ⟨⟨by decide, by decide, by decide⟩,
    saveData_loadAll_roundtrip c2state c2fresh (by decide) (by decide) (by decide),
    by decide⟩
